import Mathlib

/-!
Verification of the advanced-vector container (src/advanced-vector/vector.h).

The container is embedded shallowly: a `Vector` value records the list of live
element values (the constructed prefix of the raw buffer `data_`) together with
the buffer capacity (`data_.Capacity()`), so `size_` is the length of `elems`.
Moves of individual elements matter observably only in `EmplaceWithoutReallocate`
and `Erase`, where a moved-from source object stays inside the live region; those
operations therefore take a parameter `mv : α → α` giving the residue value a
source object of the element type holds after being moved from (for a
trivially-copyable type `mv = id`, for a type like unique_ptr `mv` sends
everything to the null value).

Failure behaviour (allocation or element-construction faults) is modelled by a
second family of operations returning `Except`, parametrised by a `Faults`
oracle saying which allocations and which element constructions fail.
-/

namespace AdvVector

/-- Compile-time facts about the element type T used by the `if constexpr`
selection in Reserve, EmplaceBack and EmplaceWithReallocate. -/
structure TypeTraits where
  is_nothrow_move_constructible : Bool
  is_copy_constructible : Bool
  deriving DecidableEq

/-- Which relocation primitive a growth operation applies to existing elements. -/
inductive RelocKind where
  | move
  | copy
  deriving DecidableEq

/-- Relocation selection in Vector::Reserve (vector.h:190):
if constexpr (is_nothrow_move_constructible_v or not is_copy_constructible_v)
then uninitialized_move_n else uninitialized_copy_n. -/
def reserveRelocation (t : TypeTraits) : RelocKind :=
  if t.is_nothrow_move_constructible || !t.is_copy_constructible then .move else .copy

/-- Relocation selection in Vector::EmplaceBack (vector.h:248); same condition. -/
def emplaceBackRelocation (t : TypeTraits) : RelocKind :=
  if t.is_nothrow_move_constructible || !t.is_copy_constructible then .move else .copy

/-- Relocation selection in Vector::EmplaceWithReallocate (vector.h:335); same condition. -/
def emplaceWithReallocateRelocation (t : TypeTraits) : RelocKind :=
  if t.is_nothrow_move_constructible || !t.is_copy_constructible then .move else .copy

/-- The container state: `elems` is the sequence of live element values
(positions 0 .. size_-1 of the buffer `data_`), `capacity` is data_.Capacity(). -/
structure Vector (α : Type) where
  elems : List α
  capacity : Nat
  deriving DecidableEq

variable {α : Type}

/-- size_ of the container: the number of live elements. -/
def Vector.Size (v : Vector α) : Nat := v.elems.length

/-- The representation invariant maintained by the source: 0 ≤ size_ ≤ capacity
(the lower bound is automatic for Nat). -/
def Vector.wf (v : Vector α) : Prop := v.Size ≤ v.capacity

theorem Vector.size_def (v : Vector α) : v.Size = v.elems.length := rfl

theorem Vector.wf_def (v : Vector α) : v.wf ↔ v.elems.length ≤ v.capacity := Iff.rfl

instance (v : Vector α) : Decidable v.wf :=
  inferInstanceAs (Decidable (v.Size ≤ v.capacity))

/-- Vector(): default construction, null buffer and zero capacity. -/
def Vector.empty (α : Type) : Vector α := ⟨[], 0⟩

/-- explicit Vector(size_t size): allocates `size` slots and value-constructs
`size` elements (uninitialized_value_construct_n). -/
def Vector.mkSized (α : Type) [Inhabited α] (n : Nat) : Vector α :=
  ⟨List.replicate n default, n⟩

/-- Vector(const Vector&): allocates other.size_ slots (not other capacity) and
copies the elements (uninitialized_copy_n). -/
def Vector.copyCtor (v : Vector α) : Vector α := ⟨v.elems, v.Size⟩

/-- Vector(Vector&&): default-initialises the members, then Swap(other).
The pair is (state of the new vector, state of the source afterwards). -/
def Vector.moveCtor (v : Vector α) : Vector α × Vector α := (v, ⟨[], 0⟩)

/-- Vector::Swap: exchanges buffer and size of the two objects. -/
def Vector.Swap (a b : Vector α) : Vector α × Vector α := (b, a)

/-- operator=(const Vector&). The Bool argument models the pointer identity test
`this != &rhs`: `true` means the two references alias, so nothing happens.
Otherwise: if the capacity is insufficient, copy-and-swap (Vector rhs_copy(rhs);
Swap(rhs_copy)); else std::copy over the common prefix, then either destroy_n the
surplus tail of *this or uninitialized_copy_n the surplus tail of rhs. -/
def Vector.copyAssign (self rhs : Vector α) : Bool → Vector α
  | true => self
  | false =>
    if self.capacity < rhs.Size then rhs.copyCtor
    else
      let m := min rhs.Size self.Size
      let copied := rhs.elems.take m ++ self.elems.drop m
      if rhs.Size < self.Size then ⟨copied.take rhs.Size, self.capacity⟩
      else ⟨copied ++ rhs.elems.drop self.Size, self.capacity⟩

/-- operator=(Vector&&): guarded by `this != &rhs` (the Bool, `true` = aliased),
otherwise Swap(rhs). The pair is (state of *this, state of rhs) afterwards. -/
def Vector.moveAssign (self rhs : Vector α) : Bool → Vector α × Vector α
  | true => (self, rhs)
  | false => (rhs, self)

/-- operator[]: assert(index < size_) then data_[index]. The assertion-style
fatal check on an out-of-range index is modelled as `none`. -/
def Vector.opIndex (v : Vector α) (i : Nat) : Option α :=
  if i < v.Size then v.elems[i]? else none

/-- Vector::Reserve: returns unchanged if new_capacity ≤ data_.Capacity();
otherwise allocates exactly new_capacity slots, relocates the elements
(values preserved; moved-from residues in the old buffer are destroyed), and
swaps the buffers. -/
def Vector.Reserve (v : Vector α) (n : Nat) : Vector α :=
  if n ≤ v.capacity then v else ⟨v.elems, n⟩

/-- The capacity of the fresh buffer in EmplaceBack and EmplaceWithReallocate:
size_ == 0 ? 1 : size_ * 2 (both are reached only when size_ == capacity). -/
def Vector.growCap (v : Vector α) : Nat := if v.Size = 0 then 1 else v.Size * 2

/-- Vector::Resize: shrink destroys the trailing size_ - new_size elements;
grow first calls Reserve(max(new_size, Capacity() * 2)) when new_size exceeds the
capacity, then value-constructs the new trailing slots; finally size_ = new_size. -/
def Vector.Resize [Inhabited α] (v : Vector α) (k : Nat) : Vector α :=
  if k < v.Size then ⟨v.elems.take k, v.capacity⟩
  else
    let v2 := if v.capacity < k then v.Reserve (max k (v.capacity * 2)) else v
    ⟨v2.elems ++ List.replicate (k - v2.Size) default, v2.capacity⟩

/-- Vector::EmplaceBack (and PushBack, which delegates to it): on a full buffer,
allocate growCap slots, construct the new element at index size_ of the new
buffer, relocate the old elements, destroy them, swap; otherwise construct in
place at index size_. Then ++size_. Existing values are never modified in the
live region, so the result does not depend on the move residue of the type. -/
def Vector.EmplaceBack (v : Vector α) (x : α) : Vector α :=
  if v.Size = v.capacity then ⟨v.elems ++ [x], v.growCap⟩
  else ⟨v.elems ++ [x], v.capacity⟩

/-- Vector::PushBack (both overloads): EmplaceBack(value). -/
def Vector.PushBack (v : Vector α) (x : α) : Vector α := v.EmplaceBack x

/-- Vector::PopBack: if size_ > 0, destroy the last live element and decrement
size_; otherwise do nothing. -/
def Vector.PopBack (v : Vector α) : Vector α :=
  if 0 < v.Size then ⟨v.elems.dropLast, v.capacity⟩ else v

/-- Vector::EmplaceWithReallocate: allocate growCap slots, construct the new
element at index shift of the new buffer first, then relocate the prefix
[0, shift) and the suffix [shift, size_) around it, destroy the old elements,
swap. The relocated values are transferred intact into the fresh buffer and the
old buffer (including any moved-from residues) is destroyed whole, so the result
does not depend on the move residue of the type. -/
def Vector.EmplaceWithReallocate (v : Vector α) (shift : Nat) (x : α) : Vector α :=
  ⟨v.elems.take shift ++ [x] ++ v.elems.drop shift, v.growCap⟩

/-- Vector::EmplaceWithoutReallocate, traced slot by slot for size_ ≠ 0:
1. new (data_ + size_) T(move(data_[size_ - 1])): slot size_ receives the last
   value; slot size_-1 now holds the residue mv(last).
2. move_backward(begin() + shift, data_ + size_, data_ + size_ + 1): the source
   range still contains slot size_-1, whose content was already moved out in
   step 1, and the destination range ends one past the freshly constructed slot.
   Walking back to front: slot size_ is overwritten with the residue mv(last),
   then slot j receives the old value of slot j-1 for j = size_-1 down to
   shift+1.
3. destroy_at(begin() + shift), then construct the new element there.
For shift = size_ the move is empty, so the copy of the last value made in step
1 is destroyed again by step 3 and the new element lands in slot size_, leaving
the residue mv(last) in slot size_-1.
Net effect: the original last value is lost, replaced by the residue mv(last). -/
def Vector.EmplaceWithoutReallocate (v : Vector α) (mv : α → α) (shift : Nat)
    (x : α) : Vector α :=
  if v.Size ≠ 0 then
    if shift < v.Size then
      ⟨v.elems.take shift ++ [x] ++ (v.elems.drop shift).dropLast
        ++ (v.elems.drop (v.Size - 1)).map mv, v.capacity⟩
    else
      ⟨v.elems.dropLast ++ (v.elems.drop (v.Size - 1)).map mv ++ [x], v.capacity⟩
  else ⟨[x], v.capacity⟩

/-- Vector::Emplace without its assertion: dispatch on size_ == Capacity(); the
final ++size_ is reflected in the element list growing by one. -/
def Vector.Emplace (v : Vector α) (mv : α → α) (shift : Nat) (x : α) : Vector α :=
  if v.Size = v.capacity then v.EmplaceWithReallocate shift x
  else v.EmplaceWithoutReallocate mv shift x

/-- Vector::Emplace with its assert(pos >= begin() && pos <= end()); the
assertion-style fatal check on an out-of-bounds position is modelled as `none`. -/
def Vector.EmplaceChecked (v : Vector α) (mv : α → α) (shift : Nat) (x : α) :
    Option (Vector α) :=
  if shift ≤ v.Size then some (v.Emplace mv shift x) else none

/-- Vector::Erase. The guard `pos >= begin() && pos <= end()` is an ordinary
conditional, not an assert: an out-of-bounds position silently does nothing.
In bounds with shift < size_, std::move(begin()+shift+1, end(), begin()+shift)
shifts the values after the removal point one slot left, leaving the residue
mv(last) in the final slot, which PopBack then destroys. (pos == end() passes
the guard but hands std::move an ill-formed source range, which is undefined
behaviour in the source; the model treats that degenerate move as doing
nothing. No claim below depends on that case.) -/
def Vector.Erase (v : Vector α) (mv : α → α) (shift : Nat) : Vector α :=
  if shift ≤ v.Size then
    Vector.PopBack
      ⟨(if shift < v.Size then
          v.elems.take shift ++ v.elems.drop (shift + 1)
            ++ (v.elems.drop (v.Size - 1)).map mv
        else v.elems), v.capacity⟩
  else v

/-- Fault oracle for the failure-aware model: which allocations and which
element constructions throw, and what residue a successful move leaves in the
source object. -/
structure Faults (α : Type) where
  allocFails : Nat → Bool
  ctorFails : α → Bool
  copyFails : α → Bool
  moveFails : α → Bool
  movedVal : α → α

/-- std::uninitialized_move_n from the old buffer into fresh storage, for a type
whose move constructor may throw. On success every source object is left as a
moved-from residue (the caller destroys them all). On failure the destination
objects already constructed are destroyed by uninitialized_move_n itself and the
error carries the source buffer contents as observed afterwards: the sources
moved before the failing one keep their residues. -/
def uninitializedMoveN (f : Faults α) : List α → Except (List α) Unit
  | [] => .ok ()
  | a :: rest =>
    if f.moveFails a then .error (a :: rest)
    else
      match uninitializedMoveN f rest with
      | .ok () => .ok ()
      | .error r => .error (f.movedVal a :: r)

/-- std::uninitialized_copy_n from the old buffer into fresh storage: a failing
copy makes uninitialized_copy_n destroy what it constructed and rethrow; the
source buffer is never modified. -/
def uninitializedCopyN (f : Faults α) (l : List α) : Except (List α) Unit :=
  if l.any f.copyFails then .error l else .ok ()

/-- The relocation step shared by Reserve and EmplaceBack: the if constexpr
condition selects uninitialized_move_n or uninitialized_copy_n. A nothrow move
cannot fail; a throwing move is used only when the type is not
copy-constructible. On error the payload is the old buffer contents. -/
def relocateF (f : Faults α) (t : TypeTraits) (l : List α) : Except (List α) Unit :=
  if t.is_nothrow_move_constructible || !t.is_copy_constructible then
    if t.is_nothrow_move_constructible then .ok ()
    else uninitializedMoveN f l
  else uninitializedCopyN f l

/-- Failure-aware Vector::Reserve. The error payload is the container state
observable after the exception propagates (size_ and data_ are only modified
after every fallible step has succeeded). -/
def Vector.ReserveF (v : Vector α) (f : Faults α) (t : TypeTraits) (n : Nat) :
    Except (Vector α) (Vector α) :=
  if n ≤ v.capacity then .ok v
  else if f.allocFails n then .error v
  else
    match relocateF f t v.elems with
    | .error r => .error ⟨r, v.capacity⟩
    | .ok () => .ok ⟨v.elems, n⟩

/-- Failure-aware Vector::EmplaceBack. In the growth branch the new element is
constructed at index size_ of the new buffer before the relocation; destroy_n,
the buffer swap and ++size_ happen only after everything has succeeded, so any
failure leaves size_ and capacity as they were. -/
def Vector.EmplaceBackF (v : Vector α) (f : Faults α) (t : TypeTraits) (x : α) :
    Except (Vector α) (Vector α) :=
  if v.Size = v.capacity then
    if f.allocFails v.growCap then .error v
    else if f.ctorFails x then .error v
    else
      match relocateF f t v.elems with
      | .error r => .error ⟨r, v.capacity⟩
      | .ok () => .ok ⟨v.elems ++ [x], v.growCap⟩
  else if f.ctorFails x then .error v
  else .ok ⟨v.elems ++ [x], v.capacity⟩

/-- Failure-aware Vector::EmplaceWithReallocate. The new element is constructed
at index shift of the new buffer first; then the prefix and the suffix are
relocated. In the copy branch the two uninitialized_copy_n calls are wrapped in
a try/catch that destroys the new element before rethrowing, so on a copy
failure the old buffer is untouched. In the throwing-move branch a mid-move
failure leaves residues in the already-moved part of the old buffer. -/
def Vector.EmplaceWithReallocF (v : Vector α) (f : Faults α) (t : TypeTraits)
    (shift : Nat) (x : α) : Except (Vector α) (Vector α) :=
  if f.allocFails v.growCap then .error v
  else if f.ctorFails x then .error v
  else
    if t.is_nothrow_move_constructible || !t.is_copy_constructible then
      if t.is_nothrow_move_constructible then
        .ok ⟨v.elems.take shift ++ [x] ++ v.elems.drop shift, v.growCap⟩
      else
        match uninitializedMoveN f (v.elems.take shift) with
        | .error r => .error ⟨r ++ v.elems.drop shift, v.capacity⟩
        | .ok () =>
          match uninitializedMoveN f (v.elems.drop shift) with
          | .error r => .error ⟨(v.elems.take shift).map f.movedVal ++ r, v.capacity⟩
          | .ok () => .ok ⟨v.elems.take shift ++ [x] ++ v.elems.drop shift, v.growCap⟩
    else
      match uninitializedCopyN f (v.elems.take shift ++ v.elems.drop shift) with
      | .error _ => .error v
      | .ok () => .ok ⟨v.elems.take shift ++ [x] ++ v.elems.drop shift, v.growCap⟩

/-- A fault oracle for a non-copyable type whose (throwing) move zeroes the
source: moving a 7 throws, every other construction succeeds. -/
def cexFaults : Faults Nat :=
  ⟨fun _ => false, fun _ => false, fun _ => false, fun a => a == 7, fun _ => 0⟩

/-- A fault oracle whose every allocation fails. -/
def okFaults : Faults Nat :=
  ⟨fun _ => true, fun _ => false, fun _ => false, fun _ => false, id⟩

theorem Vector.popBack_of_pos (v : Vector α) (h : 0 < v.Size) :
    v.PopBack = ⟨v.elems.dropLast, v.capacity⟩ := by
  unfold Vector.PopBack
  rw [if_pos h]

theorem Vector.popBack_of_zero (v : Vector α) (h : v.Size = 0) : v.PopBack = v := by
  unfold Vector.PopBack
  rw [if_neg (by omega)]

/-- C1: at each of the three relocation sites (Reserve, EmplaceBack,
EmplaceWithReallocate) the move path is selected if and only if the element
type has a statically non-throwing move constructor or is not
copy-constructible; in every other case the copy path is selected, and all
three sites agree. -/
theorem c1_relocation_rule (t : TypeTraits) :
    (reserveRelocation t = RelocKind.move
      ↔ (t.is_nothrow_move_constructible = true ∨ t.is_copy_constructible = false))
    ∧ (reserveRelocation t = RelocKind.copy
      ↔ ¬(t.is_nothrow_move_constructible = true ∨ t.is_copy_constructible = false))
    ∧ emplaceBackRelocation t = reserveRelocation t
    ∧ emplaceWithReallocateRelocation t = reserveRelocation t := by
  obtain ⟨a, b⟩ := t
  cases a <;> cases b <;> decide

/-- C8: move construction hands the buffer and length of the source to the new
vector and leaves the source with length 0 and capacity 0; move assignment
(non-aliased) swaps, so the destination afterwards holds exactly the original
elements of the source. -/
theorem c8_move_transfer (v d s : Vector α) :
    v.moveCtor.1 = v ∧ v.moveCtor.2.Size = 0 ∧ v.moveCtor.2.capacity = 0
    ∧ (d.moveAssign s false).1 = s ∧ (d.moveAssign s false).2 = d :=
  ⟨rfl, rfl, rfl, rfl, rfl⟩

/-- C10: self-assignment is an identity: the pointer test makes the aliased
copy- and move-assignments no-ops, and even a non-aliased copy assignment from
a value-equal vector leaves the vector unchanged. -/
theorem c10_self_assignment (v : Vector α) (hwf : v.wf) :
    v.copyAssign v true = v
    ∧ (v.moveAssign v true).1 = v
    ∧ v.copyAssign v false = v := by
  refine ⟨rfl, rfl, ?_⟩
  unfold Vector.wf at hwf
  simp only [Vector.copyAssign]
  rw [if_neg (by omega)]
  rw [if_neg (by omega)]
  simp [Vector.size_def, Nat.min_self, List.take_length, List.drop_length]

/-- C10 witness: the three identities at a concrete vector. -/
theorem c10_self_assignment_witness :
    (⟨[1,2],3⟩ : Vector Nat).copyAssign ⟨[1,2],3⟩ true = ⟨[1,2],3⟩
    ∧ ((⟨[1,2],3⟩ : Vector Nat).moveAssign ⟨[1,2],3⟩ true).1 = ⟨[1,2],3⟩
    ∧ (⟨[1,2],3⟩ : Vector Nat).copyAssign ⟨[1,2],3⟩ false = ⟨[1,2],3⟩ :=
  c10_self_assignment ⟨[1,2],3⟩ (by decide)

/-- C9 (amended): an out-of-range index in operator[] and an out-of-bounds
position in Emplace trigger the assertion-style fatal check (modelled as none),
and exactly then; Erase with an out-of-bounds position marker performs no fatal
check at all: it is a silent no-op. -/
theorem c9_precondition_checks (v : Vector α) (i j : Nat) (x : α) (mv : α → α)
    (hi : v.Size < i) :
    (v.opIndex j = none ↔ v.Size ≤ j)
    ∧ (v.EmplaceChecked mv j x = none ↔ v.Size < j)
    ∧ v.Erase mv i = v := by
  refine ⟨?_, ?_, ?_⟩
  · unfold Vector.opIndex
    split
    · next h => simp only [Vector.size_def] at h ⊢; exact List.getElem?_eq_none_iff
    · next h => simp only [Vector.size_def] at h ⊢; simp; omega
  · unfold Vector.EmplaceChecked
    split
    · next h => simp; omega
    · next h => simp; omega
  · unfold Vector.Erase
    rw [if_neg (by omega)]

/-- C9 witness: checked operator[] and Emplace at a concrete vector, plus the
silent out-of-bounds Erase. -/
theorem c9_precondition_checks_witness :
    ((⟨[4],1⟩ : Vector Nat).opIndex 2 = none ↔ (⟨[4],1⟩ : Vector Nat).Size ≤ 2)
    ∧ ((⟨[4],1⟩ : Vector Nat).EmplaceChecked id 2 9 = none
        ↔ (⟨[4],1⟩ : Vector Nat).Size < 2)
    ∧ (⟨[4],1⟩ : Vector Nat).Erase id 3 = ⟨[4],1⟩ :=
  c9_precondition_checks ⟨[4],1⟩ 3 2 9 id (by decide)

/-- C9 counterexample: Erase at the out-of-bounds position 5 of a vector of
length 2 silently returns the vector unchanged; no assertion-style fatal check
is performed, contradicting the claim for erase-at-position. -/
theorem c9_counterexample :
    (⟨[1,2],2⟩ : Vector Nat).Erase id 5 = ⟨[1,2],2⟩
    ∧ (⟨[1,2],2⟩ : Vector Nat).Size < 5 :=
  ⟨by decide, by decide⟩

/-- C3 (amended): resize-driven, append-driven and insert-driven growth all
allocate max(requested, 2 * current capacity) slots, where the requested
capacity is the new length (so the floor of 1 for capacity 0 is subsumed, the
request being at least 1); reserve-driven growth instead allocates exactly the
requested capacity, even when that is below twice the current capacity.
Reserve- and resize-driven growth are stated for any well-formed vector whose
capacity the request exceeds; append- and insert-driven growth trigger only on
a full buffer (size_ == Capacity()), so those parts are conditioned on it. -/
theorem c3_growth_policy [Inhabited α] (v : Vector α) (n k i : Nat) (x : α)
    (mv : α → α) (hwf : v.wf) (hn : v.capacity < n) (hk : v.capacity < k) :
    (v.Reserve n).capacity = n
    ∧ (v.Resize k).capacity = max k (2 * v.capacity)
    ∧ (v.Size = v.capacity → (v.PushBack x).capacity = max (v.Size + 1) (2 * v.capacity))
    ∧ (v.Size = v.capacity → (v.Emplace mv i x).capacity = max (v.Size + 1) (2 * v.capacity))
    ∧ (v.Size = v.capacity → 1 ≤ (v.PushBack x).capacity) := by
  unfold Vector.wf at hwf
  refine ⟨?_, ?_, ?_, ?_, ?_⟩
  · unfold Vector.Reserve
    rw [if_neg (by omega)]
  · unfold Vector.Resize
    rw [if_neg (by omega), if_pos hk]
    unfold Vector.Reserve
    rw [if_neg (by omega)]
    simp only []
    omega
  · intro hfull
    unfold Vector.PushBack Vector.EmplaceBack
    rw [if_pos hfull]
    dsimp only
    unfold Vector.growCap
    split <;> omega
  · intro hfull
    unfold Vector.Emplace Vector.EmplaceWithReallocate
    rw [if_pos hfull]
    dsimp only
    unfold Vector.growCap
    split <;> omega
  · intro hfull
    unfold Vector.PushBack Vector.EmplaceBack
    rw [if_pos hfull]
    dsimp only
    unfold Vector.growCap
    split <;> omega

/-- C3 witness: reserve- and resize-driven growth on a non-full vector of size
1 and capacity 3 (Reserve(4) gives exactly 4; Resize(7) gives max(7,6) = 7),
and append- and insert-driven growth on a full vector of size 2 and capacity 2
(both give max(3,4) = 4). -/
theorem c3_growth_policy_witness :
    ((⟨[1],3⟩ : Vector Nat).Reserve 4).capacity = 4
    ∧ ((⟨[1],3⟩ : Vector Nat).Resize 7).capacity
        = max 7 (2 * (⟨[1],3⟩ : Vector Nat).capacity)
    ∧ ((⟨[1,2],2⟩ : Vector Nat).PushBack 9).capacity
        = max ((⟨[1,2],2⟩ : Vector Nat).Size + 1) (2 * (⟨[1,2],2⟩ : Vector Nat).capacity)
    ∧ ((⟨[1,2],2⟩ : Vector Nat).Emplace id 0 9).capacity
        = max ((⟨[1,2],2⟩ : Vector Nat).Size + 1) (2 * (⟨[1,2],2⟩ : Vector Nat).capacity)
    ∧ 1 ≤ ((⟨[1,2],2⟩ : Vector Nat).PushBack 9).capacity :=
  ⟨(c3_growth_policy ⟨[1],3⟩ 4 7 0 9 id (by decide) (by decide) (by decide)).1,
   (c3_growth_policy ⟨[1],3⟩ 4 7 0 9 id (by decide) (by decide) (by decide)).2.1,
   (c3_growth_policy ⟨[1,2],2⟩ 3 5 0 9 id (by decide) (by decide) (by decide)).2.2.1 rfl,
   (c3_growth_policy ⟨[1,2],2⟩ 3 5 0 9 id (by decide) (by decide) (by decide)).2.2.2.1 rfl,
   (c3_growth_policy ⟨[1,2],2⟩ 3 5 0 9 id (by decide) (by decide) (by decide)).2.2.2.2 rfl⟩

/-- C3 counterexample: a vector with capacity 4; Reserve(5) allocates exactly
5 slots, while the claimed formula max(requested, 2 * capacity) gives 8. -/
theorem c3_counterexample :
    ((⟨[0,0,0,0],4⟩ : Vector Nat).Reserve 5).capacity = 5
    ∧ max 5 (2 * (⟨[0,0,0,0],4⟩ : Vector Nat).capacity) = 8 := by
  refine ⟨by decide, by decide⟩

/-- C7: Resize(k) with k < length keeps exactly the first k values and destroys
the length - k trailing elements; Resize(k) with k > length appends exactly
k - length default-constructed values after the unchanged originals (growing
the buffer first when needed); Resize(length) is a no-op. -/
theorem c7_resize [Inhabited α] (v : Vector α) (k1 k2 : Nat)
    (h1 : k1 < v.Size) (h2 : v.Size < k2) (hwf : v.wf) :
    ((v.Resize k1).elems = v.elems.take k1 ∧ (v.Resize k1).Size = k1
      ∧ (v.Resize k1).capacity = v.capacity)
    ∧ (v.Resize k2).elems = v.elems ++ List.replicate (k2 - v.Size) default
    ∧ v.Resize v.Size = v := by
  unfold Vector.wf at hwf
  refine ⟨⟨?_, ?_, ?_⟩, ?_, ?_⟩
  · unfold Vector.Resize
    rw [if_pos h1]
  · unfold Vector.Resize
    rw [if_pos h1]
    simp only [Vector.size_def, List.length_take]
    simp only [Vector.size_def] at h1
    omega
  · unfold Vector.Resize
    rw [if_pos h1]
  · unfold Vector.Resize
    rw [if_neg (by omega)]
    by_cases hc : v.capacity < k2
    · rw [if_pos hc]
      unfold Vector.Reserve
      rw [if_neg (by omega)]
      dsimp only
      rfl
    · rw [if_neg hc]
  · unfold Vector.Resize
    rw [if_neg (by omega)]
    rw [if_neg (by omega)]
    dsimp only
    rw [Nat.sub_self]
    simp

/-- C7 witness: resizing [1, 2] (capacity 4) down to 1, up to 3, and to its own
length. -/
theorem c7_resize_witness :
    (((⟨[1,2],4⟩ : Vector Nat).Resize 1).elems = (⟨[1,2],4⟩ : Vector Nat).elems.take 1
      ∧ ((⟨[1,2],4⟩ : Vector Nat).Resize 1).Size = 1
      ∧ ((⟨[1,2],4⟩ : Vector Nat).Resize 1).capacity = (⟨[1,2],4⟩ : Vector Nat).capacity)
    ∧ ((⟨[1,2],4⟩ : Vector Nat).Resize 3).elems
        = (⟨[1,2],4⟩ : Vector Nat).elems
          ++ List.replicate (3 - (⟨[1,2],4⟩ : Vector Nat).Size) default
    ∧ (⟨[1,2],4⟩ : Vector Nat).Resize (⟨[1,2],4⟩ : Vector Nat).Size = ⟨[1,2],4⟩ :=
  c7_resize ⟨[1,2],4⟩ 1 3 (by decide) (by decide) (by decide)

/-- C6: erasing at a valid position i removes exactly the element at position i
and keeps the relative order of the rest; erasing at the last valid position
equals PopBack; PopBack on a non-empty vector destroys the last element and
decrements the length; PopBack on an empty vector is a no-op. -/
theorem c6_erase_popback (mv : α → α) (v : Vector α) (i : Nat) (h : i < v.Size) :
    ((v.Erase mv i).elems = v.elems.take i ++ v.elems.drop (i + 1)
      ∧ (v.Erase mv i).Size = v.Size - 1
      ∧ (v.Erase mv i).capacity = v.capacity)
    ∧ v.Erase mv (v.Size - 1) = v.PopBack
    ∧ v.PopBack = ⟨v.elems.dropLast, v.capacity⟩
    ∧ v.PopBack.Size = v.Size - 1
    ∧ (∀ w : Vector α, w.Size = 0 → w.PopBack = w) := by
  have hs1 : 0 < v.Size := by omega
  have hlen : (v.elems.drop (v.Size - 1)).length = 1 := by
    simp only [Vector.size_def] at hs1 ⊢
    simp [List.length_drop]
    omega
  obtain ⟨a, ha⟩ := List.length_eq_one.mp hlen
  have hE : v.Erase mv i = ⟨v.elems.take i ++ v.elems.drop (i + 1), v.capacity⟩ := by
    unfold Vector.Erase
    rw [if_pos (Nat.le_of_lt h), if_pos h, ha]
    simp only [List.map_cons, List.map_nil]
    rw [Vector.popBack_of_pos _ (by
      simp only [Vector.size_def, List.length_append, List.length_cons, List.length_nil]
      omega)]
    dsimp only
    rw [List.dropLast_concat]
  refine ⟨⟨?_, ?_, ?_⟩, ?_, ?_, ?_, ?_⟩
  · rw [hE]
  · rw [hE]
    simp only [Vector.size_def, List.length_append, List.length_take, List.length_drop]
    simp only [Vector.size_def] at h
    omega
  · rw [hE]
  · unfold Vector.Erase
    rw [if_pos (by omega), if_pos (by omega)]
    have hx : v.Size - 1 + 1 = v.Size := by omega
    rw [hx]
    rw [show v.elems.drop v.Size = ([] : List α) from List.drop_length v.elems]
    rw [ha]
    simp only [List.map_cons, List.map_nil, List.append_nil]
    rw [Vector.popBack_of_pos _ (by
      simp only [Vector.size_def, List.length_append, List.length_cons, List.length_nil]
      omega)]
    rw [Vector.popBack_of_pos v hs1]
    dsimp only
    rw [List.dropLast_concat, List.dropLast_eq_take]
    rfl
  · exact Vector.popBack_of_pos v hs1
  · rw [Vector.popBack_of_pos v hs1]
    simp only [Vector.size_def, List.length_dropLast]
  · intro w hw
    exact Vector.popBack_of_zero w hw

/-- C6 witness: erasing position 1 of [1, 2, 3] gives [1, 3]; erasing the last
valid position 2 equals PopBack. -/
theorem c6_erase_popback_witness :
    ((⟨[1,2,3],3⟩ : Vector Nat).Erase id 1).elems = [1, 3]
    ∧ (⟨[1,2,3],3⟩ : Vector Nat).Erase id 2 = (⟨[1,2,3],3⟩ : Vector Nat).PopBack :=
  ⟨(c6_erase_popback id ⟨[1,2,3],3⟩ 1 (by decide)).1.1,
   (c6_erase_popback id ⟨[1,2,3],3⟩ 1 (by decide)).2.1⟩

/-- C5: every constructor establishes, and every public operation preserves,
the invariant 0 ≤ size_ ≤ capacity. -/
theorem c5_invariant [Inhabited α] (mv : α → α) (b : Bool) (v w : Vector α)
    (n k i : Nat) (x : α) (hv : v.wf) (hw : w.wf) :
    (Vector.empty α).wf
    ∧ (Vector.mkSized α n).wf
    ∧ v.copyCtor.wf
    ∧ v.moveCtor.1.wf
    ∧ v.moveCtor.2.wf
    ∧ (v.copyAssign w b).wf
    ∧ (v.moveAssign w b).1.wf
    ∧ (v.moveAssign w b).2.wf
    ∧ (Vector.Swap v w).1.wf
    ∧ (Vector.Swap v w).2.wf
    ∧ (v.Reserve n).wf
    ∧ (v.Resize k).wf
    ∧ (v.PushBack x).wf
    ∧ (∀ u : Vector α, v.EmplaceChecked mv i x = some u → u.wf)
    ∧ (v.Erase mv i).wf
    ∧ v.PopBack.wf := by
  unfold Vector.wf at hv hw ⊢
  simp only [Vector.size_def] at hv hw ⊢
  have hpb : ∀ u : Vector α, u.elems.length ≤ u.capacity →
      u.PopBack.elems.length ≤ u.PopBack.capacity := by
    intro u hu
    unfold Vector.PopBack
    split
    · dsimp only
      simp only [List.length_dropLast]
      omega
    · exact hu
  refine ⟨?_, ?_, ?_, ?_, ?_, ?_, ?_, ?_, ?_, ?_, ?_, ?_, ?_, ?_, ?_, ?_⟩
  · simp [Vector.empty]
  · simp [Vector.mkSized]
  · simp [Vector.copyCtor, Vector.size_def]
  · exact hv
  · simp [Vector.moveCtor]
  · cases b with
    | true => exact hv
    | false =>
      simp only [Vector.copyAssign]
      split
      · simp [Vector.copyCtor, Vector.size_def]
      · next hcap =>
        simp only [Vector.size_def] at hcap
        split
        · next hlt =>
          simp only [Vector.size_def] at hlt
          simp only [Vector.size_def, List.length_take, List.length_append,
            List.length_drop]
          omega
        · next hlt =>
          simp only [Vector.size_def] at hlt
          simp only [Vector.size_def, List.length_take, List.length_append,
            List.length_drop]
          omega
  · cases b with
    | false => exact hw
    | true => exact hv
  · cases b with
    | false => exact hv
    | true => exact hw
  · exact hw
  · exact hv
  · unfold Vector.Reserve
    split
    · exact hv
    · next hle => simp only [Vector.size_def] at hle ⊢; omega
  · unfold Vector.Resize Vector.Reserve
    split
    · next hk =>
      simp only [Vector.size_def, List.length_take] at hk ⊢
      omega
    · next hk =>
      simp only [Vector.size_def] at hk
      split
      · next hc =>
        split
        · next hmax =>
          simp only [Vector.size_def, List.length_append, List.length_replicate]
          omega
        · next hmax =>
          simp only [Vector.size_def, List.length_append, List.length_replicate]
          omega
      · next hc =>
        simp only [Vector.size_def, List.length_append, List.length_replicate]
        omega
  · unfold Vector.PushBack Vector.EmplaceBack Vector.growCap
    split
    · next hfull =>
      simp only [Vector.size_def] at hfull ⊢
      split <;> (simp only [List.length_append, List.length_cons, List.length_nil]; omega)
    · next hfull =>
      simp only [Vector.size_def] at hfull ⊢
      simp only [List.length_append, List.length_cons, List.length_nil]
      omega
  · intro u hu
    unfold Vector.EmplaceChecked at hu
    split at hu
    · next hle =>
      rw [Option.some.injEq] at hu
      subst hu
      unfold Vector.Emplace Vector.EmplaceWithReallocate Vector.EmplaceWithoutReallocate
        Vector.growCap
      simp only [Vector.size_def] at hle ⊢
      split
      · next hfull =>
        split <;>
          (simp only [List.length_append, List.length_take, List.length_drop,
            List.length_cons, List.length_nil]
           omega)
      · next hfull =>
        split
        · next hz =>
          split <;>
            (simp only [List.length_append, List.length_take, List.length_drop,
              List.length_cons, List.length_nil, List.length_dropLast, List.length_map]
             omega)
        · next hz =>
          simp only [List.length_cons, List.length_nil]
          omega
    · exact absurd hu (by simp)
  · unfold Vector.Erase
    split
    · next hle =>
      apply hpb
      dsimp only
      split
      · next hpos =>
        simp only [Vector.size_def] at hle hpos ⊢
        simp only [List.length_append, List.length_take, List.length_drop,
          List.length_map]
        omega
      · next hpos => exact hv
    · exact hv
  · exact hpb v hv

/-- C5 witness: the invariant after a concrete append and a concrete erase. -/
theorem c5_invariant_witness :
    ((⟨[1,2],4⟩ : Vector Nat).PushBack 9).wf
    ∧ ((⟨[1,2],4⟩ : Vector Nat).Erase id 0).wf :=
  ⟨(c5_invariant id true ⟨[1,2],4⟩ ⟨[3],2⟩ 3 1 0 9 (by decide)
      (by decide)).2.2.2.2.2.2.2.2.2.2.2.2.1,
   (c5_invariant id true ⟨[1,2],4⟩ ⟨[3],2⟩ 3 1 0 9 (by decide)
      (by decide)).2.2.2.2.2.2.2.2.2.2.2.2.2.2.1⟩

theorem relocateF_error_of_safe (f : Faults α) (t : TypeTraits) (l r : List α)
    (ht : t.is_nothrow_move_constructible = true ∨ t.is_copy_constructible = true)
    (h : relocateF f t l = .error r) : r = l := by
  obtain ⟨nm, cc⟩ := t
  cases nm with
  | true =>
    unfold relocateF at h
    simp at h
  | false =>
    cases cc with
    | false => simp at ht
    | true =>
      unfold relocateF uninitializedCopyN at h
      simp only [Bool.false_or, Bool.not_true, Bool.false_eq_true, if_false] at h
      split at h
      · rw [Except.error.injEq] at h
        exact h.symm
      · cases h

/-- C2 (amended): for any element type that is copy-constructible or has a
non-throwing move constructor, a growth operation that fails (the allocation of
the new buffer or the construction of any element in it) propagates the failure
and leaves length, capacity and all element values exactly as before the call. -/
theorem c2_strong_guarantee (f : Faults α) (t : TypeTraits) (n i : Nat) (x : α)
    (v w1 w2 w3 : Vector α)
    (ht : t.is_nothrow_move_constructible = true ∨ t.is_copy_constructible = true) :
    (v.ReserveF f t n = .error w1 → w1 = v)
    ∧ (v.EmplaceBackF f t x = .error w2 → w2 = v)
    ∧ (v.EmplaceWithReallocF f t i x = .error w3 → w3 = v) := by
  refine ⟨?_, ?_, ?_⟩
  · intro h
    unfold Vector.ReserveF at h
    split at h
    · cases h
    · split at h
      · rw [Except.error.injEq] at h
        exact h.symm
      · split at h
        · next r hr =>
          rw [Except.error.injEq] at h
          rw [← h, relocateF_error_of_safe f t v.elems r ht hr]
        · cases h
  · intro h
    unfold Vector.EmplaceBackF at h
    split at h
    · split at h
      · rw [Except.error.injEq] at h
        exact h.symm
      · split at h
        · rw [Except.error.injEq] at h
          exact h.symm
        · split at h
          · next r hr =>
            rw [Except.error.injEq] at h
            rw [← h, relocateF_error_of_safe f t v.elems r ht hr]
          · cases h
    · split at h
      · rw [Except.error.injEq] at h
        exact h.symm
      · cases h
  · intro h
    unfold Vector.EmplaceWithReallocF at h
    split at h
    · rw [Except.error.injEq] at h
      exact h.symm
    · split at h
      · rw [Except.error.injEq] at h
        exact h.symm
      · obtain ⟨nm, cc⟩ := t
        cases nm with
        | true =>
          simp only [Bool.true_or, if_true] at h
          cases h
        | false =>
          cases cc with
          | false => simp at ht
          | true =>
            simp only [Bool.false_or, Bool.not_true, Bool.false_eq_true, if_false] at h
            split at h
            · rw [Except.error.injEq] at h
              exact h.symm
            · cases h

/-- C2 witness: with every allocation failing, growing [3] (a full buffer) by
reserve, append or insert errors out with the container unchanged. -/
theorem c2_strong_guarantee_witness :
    ((⟨[3],1⟩ : Vector Nat).ReserveF okFaults ⟨true, true⟩ 5 = .error ⟨[3],1⟩
      → (⟨[3],1⟩ : Vector Nat) = ⟨[3],1⟩)
    ∧ ((⟨[3],1⟩ : Vector Nat).EmplaceBackF okFaults ⟨true, true⟩ 9 = .error ⟨[3],1⟩
      → (⟨[3],1⟩ : Vector Nat) = ⟨[3],1⟩)
    ∧ ((⟨[3],1⟩ : Vector Nat).EmplaceWithReallocF okFaults ⟨true, true⟩ 0 9
        = .error ⟨[3],1⟩ → (⟨[3],1⟩ : Vector Nat) = ⟨[3],1⟩) :=
  c2_strong_guarantee okFaults ⟨true, true⟩ 5 0 9 ⟨[3],1⟩ ⟨[3],1⟩ ⟨[3],1⟩ ⟨[3],1⟩
    (Or.inl rfl)

/-- C2 counterexample: for a non-copyable element type whose (throwing) move
zeroes the source, growing the full vector [5, 7] by an append fails while
moving the 7, after the 5 has already been moved out of the old buffer; the
failure propagates but the container now reads [0, 7]: its element values are
not those from before the call, refuting the claim for that element type. -/
theorem c2_counterexample :
    Vector.EmplaceBackF ⟨[5,7],2⟩ cexFaults ⟨false, false⟩ 9
      = Except.error ⟨[0,7],2⟩
    ∧ (⟨[0,7],2⟩ : Vector Nat) ≠ ⟨[5,7],2⟩ :=
  ⟨rfl, by decide⟩

/-- C4: evaluation of the source at the failing input. For an element type
whose move zeroes the source (residue function mv = 0, as for unique_ptr),
inserting 9 into [1,2,3] with spare capacity (capacity 4, so no reallocation)
loses the value of the last element: EmplaceWithoutReallocate first
move-constructs data_[2] into slot 3, then move_backward with source range
[shift, size_) re-reads the already moved-from slot 2 and overwrites slot 3
with its residue. Insertion at position 0 yields [9,1,2,0] instead of the
claimed [9,1,2,3], and insertion at position length = 3 yields [1,2,0,9]
whereas appending yields [1,2,3,9] — the misbehaviour the source comment at
vector.h:231-239 reports for tests routing EmplaceBack through Emplace. -/
theorem c4_insert_bug_eval :
    Vector.Emplace ⟨[1,2,3],4⟩ (fun _ => 0) 0 9 = ⟨[9,1,2,0],4⟩
    ∧ (⟨[9,1,2,0],4⟩ : Vector Nat) ≠ ⟨[9,1,2,3],4⟩
    ∧ Vector.Emplace ⟨[1,2,3],4⟩ (fun _ => 0) 3 9 = ⟨[1,2,0,9],4⟩
    ∧ Vector.PushBack ⟨[1,2,3],4⟩ 9 = ⟨[1,2,3,9],4⟩
    ∧ (⟨[1,2,0,9],4⟩ : Vector Nat) ≠ ⟨[1,2,3,9],4⟩ :=
  ⟨by decide, by decide, by decide, by decide, by decide⟩

end AdvVector
